import Mathlib

/-!
Verification of the convergence and traversal engine of the
terraform-provider-tencentcloud service layer
(tencentcloud/service_tencentcloud_sqlserver.go and the ckafka service file).

The Go service functions are shallowly embedded: each remote list action is a
function from an offset to a page of items (or to a failure), the flow-status
query is a function from a poll index to a numeric status, and the
`resource.Retry` deadline is a poll budget (fuel).  Rate-limiter acquisitions
and remote invocations are recorded as an event trace so that ordering
properties can be stated.
-/

namespace TencentCloud

/-- An observable side effect of a service operation: a rate-limiter
acquisition (ratelimit.Check) for an action name, or an outbound remote call
of an action. -/
inductive Ev where
  | check (action : String)
  | call (action : String)
deriving DecidableEq, Repr

/-- Result of a paginated scan: the accumulated items, a fatal error message,
or exhaustion of the poll budget. -/
inductive ScanRes (α : Type) where
  | ok (items : List α)
  | fatal (msg : String)
  | fuelOut
deriving DecidableEq, Repr

/-- The offset/limit loop of DescribeSqlserverInstances and
DescribeSqlserverBackups (DescribeSqlserverAccounts shares the shape apart
from its not-found branch, embedded separately as describeAccountsAux, and
DescribeDBsOfInstance differs and is embedded separately as
describeDBsOfInstance): check the rate limiter, call the list action at the
current offset, fail fatally on a nil response, append the page, stop when
the page is shorter than the limit, otherwise advance the offset by the
limit.  `fetch` embeds the remote list action (`none` models a declared
success whose payload is nil), `p` is the page limit, and the remaining
arguments are the fuel, the offset cursor, and the accumulator.  Returns the
result, the number of round trips performed, and the event trace. -/
def describeScanAux {α : Type} (action : String) (fetch : Nat → Option (List α)) (p : Nat) :
    Nat → Nat → List α → ScanRes α × Nat × List Ev
  | 0, _, _ => (ScanRes.fuelOut, 0, [])
  | fuel+1, offset, acc =>
    let pre := [Ev.check action, Ev.call action]
    match fetch offset with
    | none => (ScanRes.fatal ("TencentCloud SDK return nil response, " ++ action), 1, pre)
    | some page =>
      if page.length < p then (ScanRes.ok (acc ++ page), 1, pre)
      else
        let r := describeScanAux action fetch p fuel (offset + p) (acc ++ page)
        (r.1, r.2.1 + 1, pre ++ r.2.2)

/-- The remote list action induced by a fixed backing list of items: the page
at `offset` holds the next `p` items. -/
def pageFetch {α : Type} (items : List α) (p : Nat) : Nat → Option (List α) :=
  fun offset => some ((items.drop offset).take p)

/-- DescribeSqlserverInstances: the offset/limit loop with limit 20 over the
DescribeDBInstances action, started at offset 0 with an empty accumulator. -/
def describeSqlserverInstances {α : Type} (fetch : Nat → Option (List α)) (fuel : Nat) :
    ScanRes α × Nat × List Ev :=
  describeScanAux "DescribeDBInstances" fetch 20 fuel 0 []

/-- DescribeSqlserverBackups: the offset/limit loop with limit 20 over the
DescribeBackups action, started at offset 0 with an empty accumulator. -/
def describeSqlserverBackups {α : Type} (fetch : Nat → Option (List α)) (fuel : Nat) :
    ScanRes α × Nat × List Ev :=
  describeScanAux "DescribeBackups" fetch 20 fuel 0 []

/-- DescribeDBsOfInstance: its offset/limit loop differs from the other
paginated reads.  `fetch` embeds the DescribeDBs call: `none` models a nil
response, and a payload is the DBInstances field — a list holding, per
instance, that instance's list of DB details.  Each iteration returns the
accumulator when DBInstances is empty, fails fatally when it holds more than
one instance, appends the single instance's DB details, and then returns
unless the length of the DBInstances list itself (not of the appended
details) reaches the limit `p`.  Returns the result and the number of round
trips performed. -/
def describeDBsOfInstance {α : Type} (fetch : Nat → Option (List (List α))) (p : Nat) :
    Nat → Nat → List α → ScanRes α × Nat
  | 0, _, _ => (ScanRes.fuelOut, 0)
  | fuel+1, offset, acc =>
    match fetch offset with
    | none => (ScanRes.fatal "TencentCloud SDK returns nil response for api DescribeDBs", 1)
    | some dbInstances =>
      if dbInstances.length = 0 then (ScanRes.ok acc, 1)
      else if 1 < dbInstances.length then
        (ScanRes.fatal "api DescribeDBs returned multiple DB lists for one instance", 1)
      else
        let acc2 := acc ++ dbInstances.headI
        if dbInstances.length < p then (ScanRes.ok acc2, 1)
        else
          let r := describeDBsOfInstance fetch p fuel (offset + p) acc2
          (r.1, r.2 + 1)

theorem describeScanAux_pageFetch {α : Type} (action : String) (items : List α) (p : Nat)
    (hp : 1 ≤ p) :
    ∀ fuel offset acc, items.length - offset < fuel * p →
      (describeScanAux action (pageFetch items p) p fuel offset acc).1
          = ScanRes.ok (acc ++ items.drop offset) ∧
      (describeScanAux action (pageFetch items p) p fuel offset acc).2.1
          = (items.length - offset) / p + 1 := by
  intro fuel
  induction fuel with
  | zero =>
    intro offset acc h
    rw [Nat.zero_mul] at h
    exact absurd h (Nat.not_lt_zero _)
  | succ f ih =>
    intro offset acc h
    have hlen : ((items.drop offset).take p).length = min p (items.length - offset) := by
      simp [List.length_take, List.length_drop]
    by_cases hsmall : items.length - offset < p
    · have hpage : (items.drop offset).take p = items.drop offset := by
        apply List.take_of_length_le
        simp [List.length_drop]
        omega
      have hlt : ((items.drop offset).take p).length < p := by
        rw [hlen]; omega
      have hdiv : (items.length - offset) / p = 0 := Nat.div_eq_of_lt hsmall
      simp only [describeScanAux, pageFetch]
      rw [if_pos hlt]
      exact ⟨by rw [hpage], by rw [hdiv]⟩
    · push_neg at hsmall
      have hlt : ¬ ((items.drop offset).take p).length < p := by
        rw [hlen]; omega
      have hrec : items.length - (offset + p) < f * p := by
        rw [Nat.succ_mul] at h
        omega
      have ihres := ih (offset + p) (acc ++ (items.drop offset).take p) hrec
      have hsplit : (items.drop offset).take p ++ items.drop (offset + p) = items.drop offset := by
        have h1 : items.drop (offset + p) = (items.drop offset).drop p := by
          rw [List.drop_drop]
        rw [h1, List.take_append_drop]
      have hdiv : (items.length - offset) / p
          = (items.length - (offset + p)) / p + 1 := by
        have h2 : items.length - (offset + p) = items.length - offset - p := by omega
        rw [h2, ← Nat.div_eq_sub_div (by omega) hsmall]
      simp only [describeScanAux, pageFetch]
      rw [if_neg hlt]
      refine ⟨?_, ?_⟩
      · rw [ihres.1, List.append_assoc, hsplit]
      · rw [ihres.2, hdiv]

theorem ceil_div_of_mod_ne_zero (n p : Nat) (hp : 0 < p) (h : n % p ≠ 0) :
    (n + p - 1) / p = n / p + 1 := by
  have hmod : p * (n / p) + n % p = n := Nat.div_add_mod n p
  have hrlt : n % p < p := Nat.mod_lt n hp
  have hr1 : 1 ≤ n % p := Nat.one_le_iff_ne_zero.mpr h
  have hexp : n + p - 1 = (n % p - 1) + p * (n / p + 1) := by
    rw [Nat.mul_add, Nat.mul_one]
    omega
  rw [hexp, Nat.add_mul_div_left _ _ hp, Nat.div_eq_of_lt (by omega)]
  omega

/-- C1 counterexample: DescribeDBsOfInstance, one of the loops the claim
covers, violates the claimed property.  With three backing DB details and
page size two — the remote list action embedded as the function giving, per
offset, the single instance wrapping the next page of details — the claim
predicts all three items in ceil(3/2) = 2 round trips, but the loop compares
the DBInstances-list length (one) with the limit and stops after a single
round trip with only the first page's two items. -/
theorem dbs_of_instance_counterexample :
    (describeDBsOfInstance
        (fun off => some [(([10, 20, 30] : List Nat).drop off).take 2]) 2 4 0 []).1
        = ScanRes.ok [10, 20] ∧
    (describeDBsOfInstance
        (fun off => some [(([10, 20, 30] : List Nat).drop off).take 2]) 2 4 0 []).1
        ≠ ScanRes.ok [10, 20, 30] ∧
    (describeDBsOfInstance
        (fun off => some [(([10, 20, 30] : List Nat).drop off).take 2]) 2 4 0 []).2 = 1 ∧
    (1 : Nat) ≠ (3 + 2 - 1) / 2 := by
  refine ⟨rfl, by decide, rfl, by decide⟩

/-- C1 amended: for the loops that compare the returned page's item count
with the limit (DescribeSqlserverInstances, DescribeSqlserverBackups, and
DescribeSqlserverAccounts apart from its not-found branch), the paginated
scan over a page size p >= 1 and n backing items returns exactly the n items
in order and issues ceil((n+1)/p) round trips when p divides n and ceil(n/p)
otherwise (ceilings written as (a + p - 1) / p), an exactly-full final page
triggering one more round trip; but DescribeDBsOfInstance compares the
DBInstances-list length with the limit, so for any limit above one it stops
after a single round trip with only the first page's DB details appended,
returns the accumulator early on an empty DBInstances list, and fails
fatally on more than one instance. -/
theorem paginator_amended_roundtrips {α : Type} (p : Nat) (items : List α)
    (fetch : Nat → Option (List (List α))) (fuel offset : Nat) (acc : List α) :
    (1 ≤ p →
      (describeScanAux "DescribeDBInstances" (pageFetch items p) p (items.length + 1) 0 []).1
          = ScanRes.ok items ∧
      (describeScanAux "DescribeDBInstances" (pageFetch items p) p (items.length + 1) 0 []).2.1
          = if items.length % p = 0 then (items.length + 1 + p - 1) / p
            else (items.length + p - 1) / p) ∧
    (∀ dbDetails, fetch offset = some [dbDetails] → 2 ≤ p →
        describeDBsOfInstance fetch p (fuel + 1) offset acc
          = (ScanRes.ok (acc ++ dbDetails), 1)) ∧
    (fetch offset = some [] →
        describeDBsOfInstance fetch p (fuel + 1) offset acc = (ScanRes.ok acc, 1)) ∧
    (∀ dbInstances, fetch offset = some dbInstances → 2 ≤ dbInstances.length →
        describeDBsOfInstance fetch p (fuel + 1) offset acc
          = (ScanRes.fatal "api DescribeDBs returned multiple DB lists for one instance", 1)) := by
  refine ⟨?_, ?_, ?_, ?_⟩
  · intro hp
    have hfuel : items.length - 0 < (items.length + 1) * p := by
      have h := Nat.mul_le_mul_left (items.length + 1) hp
      omega
    have hmain := describeScanAux_pageFetch "DescribeDBInstances" items p hp
        (items.length + 1) 0 [] hfuel
    refine ⟨by simpa using hmain.1, ?_⟩
    rw [hmain.2, Nat.sub_zero]
    by_cases h : items.length % p = 0
    · rw [if_pos h]
      have he : items.length + 1 + p - 1 = items.length + p := by omega
      rw [he, Nat.add_div_right _ (by omega)]
    · rw [if_neg h, ceil_div_of_mod_ne_zero _ _ (by omega) h]
  · intro dbDetails hf hp2
    have h1 : ¬ ([dbDetails].length = 0) := by simp
    have h2 : ¬ (1 < [dbDetails].length) := by simp
    have h3 : [dbDetails].length < p := by
      simp only [List.length_singleton]
      omega
    simp only [describeDBsOfInstance, hf, if_neg h1, if_neg h2, if_pos h3]
    simp [List.headI]
  · intro hf
    simp [describeDBsOfInstance, hf]
  · intro dbInstances hf hlen
    have h1 : ¬ (dbInstances.length = 0) := by omega
    have h2 : 1 < dbInstances.length := by omega
    simp only [describeDBsOfInstance, hf, if_neg h1, if_pos h2]

theorem paginator_amended_roundtrips_witness :
    (describeScanAux "DescribeDBInstances" (pageFetch [10, 20, 30] 2) 2
        ([10, 20, 30].length + 1) 0 []).1 = ScanRes.ok [10, 20, 30] ∧
    (describeScanAux "DescribeDBInstances" (pageFetch [10, 20, 30] 2) 2
        ([10, 20, 30].length + 1) 0 []).2.1
      = if [10, 20, 30].length % 2 = 0 then ([10, 20, 30].length + 1 + 2 - 1) / 2
        else ([10, 20, 30].length + 2 - 1) / 2 :=
  (paginator_amended_roundtrips 2 [10, 20, 30]
      (fun _ => some [[7]]) 0 0 []).1 (by decide)

/-- C5: at any point of a paginated scan, a remote call that reports success
but carries a nil payload makes the operation return a fatal error and stop
immediately (it is never treated as an empty page), while a well-formed
response with zero items is a valid terminal page that ends the scan
successfully with the items accumulated so far. -/
theorem nil_response_fatal_and_empty_page_terminal {α : Type} (action : String)
    (p fuel : Nat) (hp : 1 ≤ p) (fetch : Nat → Option (List α)) (offset : Nat)
    (acc : List α) :
    (fetch offset = none →
        describeScanAux action fetch p (fuel + 1) offset acc
          = (ScanRes.fatal ("TencentCloud SDK return nil response, " ++ action), 1,
             [Ev.check action, Ev.call action])) ∧
    (fetch offset = some [] →
        describeScanAux action fetch p (fuel + 1) offset acc
          = (ScanRes.ok acc, 1, [Ev.check action, Ev.call action])) := by
  constructor
  · intro h
    simp [describeScanAux, h]
  · intro h
    simp [describeScanAux, h]
    omega

theorem nil_response_fatal_and_empty_page_terminal_witness :
    (describeScanAux "DescribeDBInstances" (fun _ => (none : Option (List Nat))) 20
        (0 + 1) 0 []
      = (ScanRes.fatal ("TencentCloud SDK return nil response, " ++ "DescribeDBInstances"),
         1, [Ev.check "DescribeDBInstances", Ev.call "DescribeDBInstances"])) ∧
    (describeScanAux "DescribeDBInstances" (fun _ => (some [] : Option (List Nat))) 20
        (0 + 1) 0 [5]
      = (ScanRes.ok [5], 1, [Ev.check "DescribeDBInstances", Ev.call "DescribeDBInstances"])) :=
  ⟨(nil_response_fatal_and_empty_page_terminal "DescribeDBInstances" 20 0 (by decide)
      (fun _ => none) 0 []).1 rfl,
   (nil_response_fatal_and_empty_page_terminal "DescribeDBInstances" 20 0 (by decide)
      (fun _ => some []) 0 [5]).2 rfl⟩

/-- Modelled from the spec: the numeric status code the flow-status table maps
to a running (pending) task; the constant is declared in a repository file
outside src. -/
def SQLSERVER_TASK_RUNNING : Int := 0

/-- Modelled from the spec: the numeric status code for a successfully
finished task; the constant is declared in a repository file outside src. -/
def SQLSERVER_TASK_SUCCESS : Int := 1

/-- Modelled from the spec: the numeric status code for a failed task; the
constant is declared in a repository file outside src. -/
def SQLSERVER_TASK_FAIL : Int := 2

/-- Outcome of the convergence poll of WaitForTaskFinish. -/
inductive WaitResult where
  | success
  | failed
  | timeout
deriving DecidableEq, Repr

def DescribeFlowStatusAction : String := "DescribeFlowStatus"

/-- WaitForTaskFinish: the resource.Retry convergence loop on the flow-status
query.  Each iteration performs the remote DescribeFlowStatus call and only
then a ratelimit.Check (in that order, as in the source); a RUNNING status
retries, a FAIL status aborts as a fatal error, and any other status returns
success.  `status` embeds the flow-status query as a function from the poll
index to the returned status code, and the first argument after it is the
poll budget standing for the 4*writeRetryTimeout deadline.  Returns the
outcome, the number of polls performed, and the event trace. -/
def waitLoop (status : Nat → Int) : Nat → Nat → WaitResult × Nat × List Ev
  | 0, _ => (WaitResult.timeout, 0, [])
  | fuel+1, i =>
    let pre := [Ev.call DescribeFlowStatusAction, Ev.check DescribeFlowStatusAction]
    if status i = SQLSERVER_TASK_RUNNING then
      let r := waitLoop status fuel (i + 1)
      (r.1, r.2.1 + 1, pre ++ r.2.2)
    else if status i = SQLSERVER_TASK_FAIL then (WaitResult.failed, 1, pre)
    else (WaitResult.success, 1, pre)

/-- C2 counterexample: the status code 99 is not SQLSERVER_TASK_RUNNING, not
SQLSERVER_TASK_FAIL and not SQLSERVER_TASK_SUCCESS — it is mapped to no
terminal state — yet WaitForTaskFinish terminates as success on its first
occurrence instead of continuing to poll. -/
theorem wait_unrecognized_status_counterexample :
    (99 : Int) ≠ SQLSERVER_TASK_RUNNING ∧ (99 : Int) ≠ SQLSERVER_TASK_FAIL ∧
    (99 : Int) ≠ SQLSERVER_TASK_SUCCESS ∧
    (waitLoop (fun _ => 99) 5 0).1 = WaitResult.success ∧
    (waitLoop (fun _ => 99) 5 0).2.1 = 1 := by
  decide

/-- C2 amended: any status code other than SQLSERVER_TASK_RUNNING and
SQLSERVER_TASK_FAIL — recognized or not — makes WaitForTaskFinish terminate
as success immediately, after that single poll. -/
theorem wait_non_running_non_fail_succeeds (status : Nat → Int) (fuel i : Nat)
    (h1 : status i ≠ SQLSERVER_TASK_RUNNING) (h2 : status i ≠ SQLSERVER_TASK_FAIL) :
    waitLoop status (fuel + 1) i
      = (WaitResult.success, 1,
         [Ev.call DescribeFlowStatusAction, Ev.check DescribeFlowStatusAction]) := by
  simp [waitLoop, h1, h2]

theorem wait_non_running_non_fail_succeeds_witness :
    waitLoop (fun _ => 99) (0 + 1) 0
      = (WaitResult.success, 1,
         [Ev.call DescribeFlowStatusAction, Ev.check DescribeFlowStatusAction]) :=
  wait_non_running_non_fail_succeeds (fun _ => 99) 0 0 (by decide) (by decide)

/-- C6: when the flow-status query reports SQLSERVER_TASK_RUNNING for the
first N polls, and the deadline budget exceeds N, a success status at poll N
makes WaitForTaskFinish return success after exactly N+1 polls, and a FAIL
status at poll N makes it return a fatal failure immediately at that poll —
after exactly N+1 polls, with no further polls — regardless of N. -/
theorem wait_converges (status : Nat → Int) :
    ∀ (N i fuel : Nat), (∀ j, j < N → status (i + j) = SQLSERVER_TASK_RUNNING) →
      N < fuel →
      ((status (i + N) = SQLSERVER_TASK_SUCCESS →
          (waitLoop status fuel i).1 = WaitResult.success ∧
          (waitLoop status fuel i).2.1 = N + 1) ∧
       (status (i + N) = SQLSERVER_TASK_FAIL →
          (waitLoop status fuel i).1 = WaitResult.failed ∧
          (waitLoop status fuel i).2.1 = N + 1)) := by
  intro N
  induction N with
  | zero =>
    intro i fuel hrun hfuel
    obtain ⟨f, rfl⟩ : ∃ f, fuel = f + 1 := ⟨fuel - 1, by omega⟩
    constructor
    · intro hs
      rw [Nat.add_zero] at hs
      have h1 : status i ≠ SQLSERVER_TASK_RUNNING := by
        rw [hs]; decide
      have h2 : status i ≠ SQLSERVER_TASK_FAIL := by
        rw [hs]; decide
      simp [waitLoop, h1, h2]
    · intro hs
      rw [Nat.add_zero] at hs
      have h1 : status i ≠ SQLSERVER_TASK_RUNNING := by
        rw [hs]; decide
      simp [waitLoop, h1, hs, SQLSERVER_TASK_FAIL, SQLSERVER_TASK_RUNNING]
  | succ n ih =>
    intro i fuel hrun hfuel
    obtain ⟨f, rfl⟩ : ∃ f, fuel = f + 1 := ⟨fuel - 1, by omega⟩
    have h0 : status i = SQLSERVER_TASK_RUNNING := by
      have := hrun 0 (by omega)
      simpa using this
    have hrun1 : ∀ j, j < n → status (i + 1 + j) = SQLSERVER_TASK_RUNNING := by
      intro j hj
      have := hrun (j + 1) (by omega)
      have he : i + 1 + j = i + (j + 1) := by omega
      rw [he]
      exact this
    have he2 : i + 1 + n = i + (n + 1) := by omega
    have ihres := ih (i + 1) f hrun1 (by omega)
    constructor
    · intro hs
      rw [← he2] at hs
      have hr := ihres.1 hs
      simp [waitLoop, h0]
      exact ⟨hr.1, hr.2⟩
    · intro hs
      rw [← he2] at hs
      have hr := ihres.2 hs
      simp [waitLoop, h0]
      exact ⟨hr.1, hr.2⟩

theorem wait_converges_witness :
    ((fun k => if k < 3 then (0 : Int) else 1) (0 + 3) = SQLSERVER_TASK_SUCCESS →
        (waitLoop (fun k => if k < 3 then (0 : Int) else 1) 4 0).1 = WaitResult.success ∧
        (waitLoop (fun k => if k < 3 then (0 : Int) else 1) 4 0).2.1 = 3 + 1) ∧
    ((fun k => if k < 3 then (0 : Int) else 1) (0 + 3) = SQLSERVER_TASK_FAIL →
        (waitLoop (fun k => if k < 3 then (0 : Int) else 1) 4 0).1 = WaitResult.failed ∧
        (waitLoop (fun k => if k < 3 then (0 : Int) else 1) 4 0).2.1 = 3 + 1) :=
  wait_converges (fun k => if k < 3 then (0 : Int) else 1) 3 0 4
    (by intro j hj; simp [SQLSERVER_TASK_RUNNING]; omega) (by omega)

/-- A deal record of the DescribeOrders response: the provisioned instance
identifiers and the flow id of the underlying provisioning task. -/
structure Deal where
  instanceIdSet : List String
  flowId : Int
deriving DecidableEq, Repr

/-- GetInfoFromDeal: the order-resolution lookup.  `ordersResp` embeds the
DescribeOrders response (`none` models a nil response); a response with zero
deals or more than one deal is a fatal error returned before any status
poll; with exactly one deal the first instance id is resolved and
WaitForTaskFinish is run on the flow id, whose outcome decides the result.
Returns the result and the number of status polls performed. -/
def getInfoFromDeal (ordersResp : Option (List Deal)) (status : Nat → Int)
    (fuel : Nat) : Except String String × Nat :=
  match ordersResp with
  | none => (Except.error "TencentCloud SDK returns nil response, DescribeOrders", 0)
  | some deals =>
    match deals with
    | [] => (Except.error "TencentCloud SDK returns empty deal", 0)
    | [d] =>
      let r := waitLoop status fuel 0
      match r.1 with
      | WaitResult.success => (Except.ok d.instanceIdSet.headI, r.2.1)
      | WaitResult.failed => (Except.error "SQLSERVER task status is 2(failed)", r.2.1)
      | WaitResult.timeout => (Except.error "retry timeout waiting for SQLSERVER task", r.2.1)
    | _ => (Except.error "TencentCloud SDK returns more than one deal", 0)

/-- CreateSqlserverInstance (and CreateSqlserverReadonlyInstance, which has
the identical tail): the handling of the CreateDBInstances submission.
`createResp` embeds the DealNames of the submission response (`none` models a
nil response); zero or multiple deal names is a fatal error returned without
any further call, and with exactly one deal name the order is resolved
through GetInfoFromDeal. -/
def createSqlserverInstance (createResp : Option (List String))
    (ordersResp : Option (List Deal)) (status : Nat → Int) (fuel : Nat) :
    Except String String × Nat :=
  match createResp with
  | none => (Except.error "TencentCloud SDK return nil response, CreateDBInstances", 0)
  | some dealNames =>
    match dealNames with
    | [] => (Except.error "TencentCloud SDK returns empty SQL Server ID", 0)
    | [_] => getInfoFromDeal ordersResp status fuel
    | _ => (Except.error "TencentCloud SDK returns more than one SQL Server ID", 0)

/-- C4: the order-resolution lookup returns a fatal error, with zero status
polls and no identifier, whenever the DescribeOrders response carries zero or
more than one deal, and an instance identifier is returned only when exactly
one deal is present (in which case it is that deal's first instance id);
likewise the submission call returns a fatal error without resolving
whenever its response carries zero or more than one deal name. -/
theorem deal_resolution_exactly_one (ordersResp : Option (List Deal))
    (status : Nat → Int) (fuel : Nat) :
    (∀ deals, ordersResp = some deals → deals.length ≠ 1 →
        ∃ e, getInfoFromDeal ordersResp status fuel = (Except.error e, 0)) ∧
    (∀ id n, getInfoFromDeal ordersResp status fuel = (Except.ok id, n) →
        ∃ d, ordersResp = some [d] ∧ id = d.instanceIdSet.headI) ∧
    (∀ createResp dealNames, createResp = some dealNames → dealNames.length ≠ 1 →
        ∃ e, createSqlserverInstance createResp ordersResp status fuel
          = (Except.error e, 0)) := by
  refine ⟨?_, ?_, ?_⟩
  · intro deals hresp hlen
    subst hresp
    match deals with
    | [] => exact ⟨"TencentCloud SDK returns empty deal", rfl⟩
    | [d] => exact absurd rfl hlen
    | d1 :: d2 :: rest =>
      exact ⟨"TencentCloud SDK returns more than one deal", rfl⟩
  · intro id n hok
    match ordersResp with
    | none => simp [getInfoFromDeal] at hok
    | some [] => simp [getInfoFromDeal] at hok
    | some [d] =>
      refine ⟨d, rfl, ?_⟩
      simp only [getInfoFromDeal] at hok
      cases hcase : (waitLoop status fuel 0).1 with
      | success =>
        rw [hcase] at hok
        have hfst := congrArg Prod.fst hok
        simp at hfst
        exact hfst.symm
      | failed => rw [hcase] at hok; simp at hok
      | timeout => rw [hcase] at hok; simp at hok
    | some (d1 :: d2 :: rest) => simp [getInfoFromDeal] at hok
  · intro createResp dealNames hresp hlen
    subst hresp
    match dealNames with
    | [] => exact ⟨"TencentCloud SDK returns empty SQL Server ID", rfl⟩
    | [d] => exact absurd rfl hlen
    | d1 :: d2 :: rest =>
      exact ⟨"TencentCloud SDK returns more than one SQL Server ID", rfl⟩

theorem deal_resolution_exactly_one_witness :
    ∃ e, getInfoFromDeal (some []) (fun _ => 1) 1 = (Except.error e, 0) :=
  (deal_resolution_exactly_one (some []) (fun _ => 1) 1).1 [] rfl (by decide)

/-- Helper of `wellLimited`: scans a trace remembering the previous event;
a call event is admissible only when the previous event is a rate-limiter
acquisition for the same action. -/
def wlAux : Option Ev → List Ev → Bool
  | _, [] => true
  | prev, Ev.call a :: rest =>
    (match prev with
     | some (Ev.check b) => a == b
     | _ => false) && wlAux (some (Ev.call a)) rest
  | _, Ev.check a :: rest => wlAux (some (Ev.check a)) rest

/-- A trace is well rate-limited when every remote call is immediately
preceded by a rate-limiter acquisition for that call's action name. -/
def wellLimited (tr : List Ev) : Bool :=
  wlAux none tr

/-- JgwOperateResponse of the ckafka SDK: only the return code matters. -/
structure JgwOperateResponse where
  returnCode : String
deriving DecidableEq, Repr

/-- CkafkaService.OperateStatusCheck: a nil result fails the check, otherwise
the check succeeds exactly when the return code is the string 0. -/
def operateStatusCheck (result : Option JgwOperateResponse) : Bool :=
  match result with
  | none => false
  | some r => r.returnCode == "0"

def CreateUserAction : String := "CreateUser"

/-- CkafkaService.CreateUser: issues the remote CreateUser call with no
ratelimit.Check at all, then validates the operate-status result when the
response carries one.  `resp` embeds the response (`none` models a nil
response or nil inner response, which the source lets pass as success).
Returns the result and the event trace. -/
def ckafkaCreateUser (resp : Option (Option JgwOperateResponse)) :
    Except String Unit × List Ev :=
  match resp with
  | none => (Except.ok (), [Ev.call CreateUserAction])
  | some result =>
    if operateStatusCheck result then (Except.ok (), [Ev.call CreateUserAction])
    else (Except.error "CreateUser operate status check failed", [Ev.call CreateUserAction])

/-- C7 counterexample: one successful convergence poll of WaitForTaskFinish
produces the trace [call DescribeFlowStatus, check DescribeFlowStatus] — the
remote call precedes the rate-limiter acquisition, so the trace is not well
rate-limited; the CreateUser trace holds a remote call and no acquisition at
all. -/
theorem ratelimit_before_call_counterexample :
    (waitLoop (fun _ => 1) 1 0).2.2
        = [Ev.call DescribeFlowStatusAction, Ev.check DescribeFlowStatusAction] ∧
    wellLimited (waitLoop (fun _ => 1) 1 0).2.2 = false ∧
    (ckafkaCreateUser none).2 = [Ev.call CreateUserAction] ∧
    wellLimited (ckafkaCreateUser none).2 = false := by
  decide

theorem wlAux_describeScanAux {α : Type} (action : String)
    (fetch : Nat → Option (List α)) (p : Nat) :
    ∀ fuel offset acc prev,
      wlAux prev (describeScanAux action fetch p fuel offset acc).2.2 = true := by
  intro fuel
  induction fuel with
  | zero => intro offset acc prev; rfl
  | succ f ih =>
    intro offset acc prev
    simp only [describeScanAux]
    cases hfo : fetch offset with
    | none => simp [wlAux]
    | some page =>
      by_cases hlt : page.length < p
      · simp only [if_pos hlt]
        simp [wlAux]
      · simp only [if_neg hlt]
        simp only [wlAux, List.cons_append, List.nil_append, beq_self_eq_true,
          Bool.true_and]
        exact ih (offset + p) (acc ++ page) _

/-- C7 amended: in the paginated scans every per-page remote call is
immediately preceded by a rate-limiter acquisition for its action, but the
claim fails for the other two cited operations: in WaitForTaskFinish each
iteration performs the remote flow-status call first and the acquisition
only afterwards, so no poll is preceded by an acquisition and the trace is
not well rate-limited, and CkafkaService.CreateUser issues its remote call
with no acquisition at all. -/
theorem ratelimit_amended {α : Type} (action : String)
    (fetch : Nat → Option (List α)) (p : Nat) :
    (∀ fuel offset acc,
        wellLimited (describeScanAux action fetch p fuel offset acc).2.2 = true) ∧
    (∀ status fuel i, ∃ rest,
        (waitLoop status (fuel + 1) i).2.2
          = Ev.call DescribeFlowStatusAction :: Ev.check DescribeFlowStatusAction :: rest) ∧
    (∀ status fuel i,
        wellLimited (waitLoop status (fuel + 1) i).2.2 = false) ∧
    (∀ resp, (ckafkaCreateUser resp).2 = [Ev.call CreateUserAction] ∧
        wellLimited (ckafkaCreateUser resp).2 = false) := by
  have hwait : ∀ (status : Nat → Int) (fuel i : Nat), ∃ rest,
      (waitLoop status (fuel + 1) i).2.2
        = Ev.call DescribeFlowStatusAction :: Ev.check DescribeFlowStatusAction :: rest := by
    intro status fuel i
    simp only [waitLoop]
    by_cases h0 : status i = SQLSERVER_TASK_RUNNING
    · rw [if_pos h0]
      exact ⟨(waitLoop status fuel (i + 1)).2.2, rfl⟩
    · rw [if_neg h0]
      by_cases h1 : status i = SQLSERVER_TASK_FAIL
      · rw [if_pos h1]
        exact ⟨[], rfl⟩
      · rw [if_neg h1]
        exact ⟨[], rfl⟩
  refine ⟨?_, hwait, ?_, ?_⟩
  · intro fuel offset acc
    exact wlAux_describeScanAux action fetch p fuel offset acc none
  · intro status fuel i
    obtain ⟨rest, hr⟩ := hwait status fuel i
    rw [hr]
    rfl
  · intro resp
    match resp with
    | none => exact ⟨rfl, rfl⟩
    | some result =>
      by_cases h : operateStatusCheck result
      · simp [ckafkaCreateUser, h, wellLimited, wlAux]
      · simp [ckafkaCreateUser, h, wellLimited, wlAux]

theorem ratelimit_amended_witness :
    wellLimited (describeScanAux "DescribeDBInstances" (pageFetch [1, 2, 3] 2) 2
        4 0 []).2.2 = true :=
  (ratelimit_amended "DescribeDBInstances" (pageFetch [1, 2, 3] 2) 2).1 4 0 []

/-- Modelled from the spec: the reserved composite-identifier delimiter
FILED_SP; the constant is declared in a repository file outside src.
Identifiers are modelled as lists of characters and splitting on the
single-character delimiter matches strings.Split. -/
def FILED_SP : Char := '#'

/-- Modelled from the spec: CompositeIdCodec.encode joins the parts with the
reserved delimiter (the source builds such ids by string concatenation, e.g.
fmt.Sprintf of instanceId, FILED_SP and dbName in ModifyAccountDBAttachment). -/
def encodeId (parts : List (List Char)) : List Char :=
  [FILED_SP].intercalate parts

/-- Modelled from the spec: CompositeIdCodec.decode splits on the delimiter
and fails with MalformedIdentifier when the part count differs from the
expected arity. -/
def specDecode (id : List Char) (expectedArity : Nat) :
    Except String (List (List Char)) :=
  let parts := id.splitOn FILED_SP
  if parts.length = expectedArity then Except.ok parts
  else Except.error "MalformedIdentifier"

/-- The id validation of SqlserverService.DescribeDBDetailsById: split the DB
id on FILED_SP, fail when fewer than two parts result, otherwise take the
first part as the instance id and the second as the database name. -/
def decodeDbId (dbId : List Char) : Except String (List Char × List Char) :=
  let idItem := dbId.splitOn FILED_SP
  if idItem.length < 2 then Except.error "broken ID of SQLServer DB"
  else Except.ok (idItem.getD 0 [], idItem.getD 1 [])

/-- The id validation of CkafkaService.DescribeUserByUserId, DeleteUser and
DescribeTopicById: split on FILED_SP and fail unless exactly two parts
result. -/
def decodeCkafkaUserId (userId : List Char) :
    Except String (List Char × List Char) :=
  let items := userId.splitOn FILED_SP
  if items.length = 2 then Except.ok (items.getD 0 [], items.getD 1 [])
  else Except.error "id of resource.tencentcloud_ckafka_user is wrong"

/-- The id validation of CkafkaService.DescribeAclByAclId and DeleteAcl:
split on FILED_SP and fail unless exactly seven parts result; the parts are
instance id, permission type, principal, host, operation, resource type and
resource name, in order. -/
def decodeAclId (aclId : List Char) : Except String (List (List Char)) :=
  let items := aclId.splitOn FILED_SP
  if items.length = 7 then Except.ok items
  else Except.error "id of resource.tencentcloud_ckafka_acl is wrong"

/-- C3 counterexample: the id a#b#c splits on the delimiter into three parts,
a count different from the expected arity two of a DB id, yet
DescribeDBDetailsById does not fail — its check only rejects part counts
below two, so the id is accepted with instance id a and database name b. -/
theorem composite_id_wrong_arity_counterexample :
    ((encodeId [['a'], ['b'], ['c']]).splitOn FILED_SP).length = 3 ∧
    decodeDbId (encodeId [['a'], ['b'], ['c']]) = Except.ok (['a'], ['b']) := by
  exact ⟨by decide, rfl⟩

/-- C3 amended: joining parts none of which contains the delimiter and
decoding with expected arity equal to the part count yields exactly the
original parts, for every nonempty part sequence; a decode with an arity
check always fails on a different part count, and the ckafka user/topic
(arity two) and ACL (arity seven) decoders enforce their arity exactly — but
the DB id decoder fails only when the part count is below two, accepting any
id with two or more parts and using the first two. -/
theorem composite_id_codec_amended :
    (∀ parts : List (List Char), parts ≠ [] → (∀ l ∈ parts, FILED_SP ∉ l) →
        specDecode (encodeId parts) parts.length = Except.ok parts) ∧
    (∀ id arity, (id.splitOn FILED_SP).length ≠ arity →
        specDecode id arity = Except.error "MalformedIdentifier") ∧
    (∀ a b : List Char, FILED_SP ∉ a → FILED_SP ∉ b →
        decodeCkafkaUserId (encodeId [a, b]) = Except.ok (a, b)) ∧
    (∀ id, (id.splitOn FILED_SP).length ≠ 2 →
        decodeCkafkaUserId id
          = Except.error "id of resource.tencentcloud_ckafka_user is wrong") ∧
    (∀ id, (id.splitOn FILED_SP).length ≠ 7 →
        decodeAclId id
          = Except.error "id of resource.tencentcloud_ckafka_acl is wrong") ∧
    (∀ id, 2 ≤ (id.splitOn FILED_SP).length →
        decodeDbId id
          = Except.ok ((id.splitOn FILED_SP).getD 0 [],
                       (id.splitOn FILED_SP).getD 1 [])) ∧
    (∀ id, (id.splitOn FILED_SP).length < 2 →
        decodeDbId id = Except.error "broken ID of SQLServer DB") := by
  have hsplit : ∀ parts : List (List Char), parts ≠ [] →
      (∀ l ∈ parts, FILED_SP ∉ l) →
      (encodeId parts).splitOn FILED_SP = parts := by
    intro parts hne hmem
    exact List.splitOn_intercalate parts FILED_SP hmem hne
  refine ⟨?_, ?_, ?_, ?_, ?_, ?_, ?_⟩
  · intro parts hne hmem
    simp [specDecode, hsplit parts hne hmem]
  · intro id arity h
    simp [specDecode, h]
  · intro a b ha hb
    have h2 : (encodeId [a, b]).splitOn FILED_SP = [a, b] := by
      apply hsplit
      · simp
      · intro l hl
        simp only [List.mem_cons, List.not_mem_nil, or_false] at hl
        rcases hl with rfl | rfl
        · exact ha
        · exact hb
    simp [decodeCkafkaUserId, h2]
  · intro id h
    simp [decodeCkafkaUserId, h]
  · intro id h
    simp [decodeAclId, h]
  · intro id h
    have hnl : ¬ (id.splitOn FILED_SP).length < 2 := by omega
    simp [decodeDbId, hnl]
  · intro id h
    simp [decodeDbId, h]

theorem composite_id_codec_amended_witness :
    specDecode (encodeId [['a'], ['b']]) [['a'], ['b']].length
      = Except.ok [['a'], ['b']] :=
  composite_id_codec_amended.1 [['a'], ['b']] (by decide) (by decide)

/-- The outcome handling of the ModifyAccountPrivilege call inside
SqlserverService.ModifyAccountDBAttachment, in source order: the nil-response
check comes first and the error check only after it.  `resp` embeds the
response (`none` models a nil response or nil inner response, `some flowId`
a response carrying that flow id) and `err` the error returned alongside it.
On success the flow id handed to WaitForTaskFinish is returned. -/
def modifyAccountPrivilegeStep (resp : Option Int) (err : Option String) :
    Except String Int :=
  match resp with
  | none => Except.error "TencentCloud SDK return nil response, ModifyAccountPrivilege"
  | some flowId =>
    match err with
    | some e => Except.error e
    | none => Except.ok flowId

/-- C8: when the ModifyAccountPrivilege call returns a nil response together
with a non-nil error — the ordinary SDK failure shape — the operation returns
the generic nil-response contract-violation error instead of the original
error, because the source checks the response for nil before checking the
error; the original error is dropped.  When the response is present the
original error is propagated. -/
theorem modify_attachment_masks_original_error :
    modifyAccountPrivilegeStep none (some "remote call failed")
      = Except.error "TencentCloud SDK return nil response, ModifyAccountPrivilege" ∧
    modifyAccountPrivilegeStep none (some "remote call failed")
      ≠ Except.error "remote call failed" ∧
    modifyAccountPrivilegeStep (some 7) (some "remote call failed")
      = Except.error "remote call failed" := by
  refine ⟨rfl, ?_, rfl⟩
  intro h
  have := Except.error.inj h
  simp at this

/-- A DBInstance record as far as the existence check reads it: its numeric
status. -/
structure DBInstance where
  status : Int
deriving DecidableEq, Repr

/-- The post-processing of DescribeSqlserverInstanceById on the list returned
by DescribeSqlserverInstances: an empty list yields no record; with at least
one record, more than one sets an error (without returning early), the first
record is returned, and it counts as present only when its status is none of
8, 4 and 6.  Returns the record, the presence flag, and the error. -/
def describeSqlserverInstanceById (instanceList : List DBInstance) :
    Option DBInstance × Bool × Option String :=
  match instanceList with
  | [] => (none, false, none)
  | inst :: rest =>
    let errRet : Option String :=
      if rest.length > 0 then
        some "SDK returns more than one instance with instanceId"
      else none
    let has := inst.status != 8 && inst.status != 4 && inst.status != 6
    (some inst, has, errRet)

/-- Modelled from the spec: the numeric status of a database being deleted;
the constant SQLSERVER_DB_DELETING is declared in a repository file outside
src. -/
def SQLSERVER_DB_DELETING : Int := 2

/-- A DBDetail record as far as DescribeDBDetailsById reads it: the database
name and its numeric status. -/
structure DBDetail where
  name : List Char
  status : Int
deriving DecidableEq, Repr

/-- The search loop of DescribeDBDetailsById over the databases of the
instance: the first record whose name matches is returned, and it counts as
present only when its status is not SQLSERVER_DB_DELETING. -/
def findDbDetail (dbName : List Char) : List DBDetail → Option DBDetail × Bool
  | [] => (none, false)
  | d :: rest =>
    if d.name = dbName then (some d, d.status != SQLSERVER_DB_DELETING)
    else findDbDetail dbName rest

/-- C9: DescribeSqlserverInstanceById reports the instance as present only
when its status is not 4, 6 or 8, and a first record in one of those
statuses is still returned while being reported absent; DescribeDBDetailsById
reports a matching database as present only when its status is not
SQLSERVER_DB_DELETING, and a matching record in that status is still
returned while being reported absent. -/
theorem existence_checks_status_filter (instanceList : List DBInstance)
    (dbs : List DBDetail) (dbName : List Char) :
    (∀ inst e, describeSqlserverInstanceById instanceList = (some inst, true, e) →
        inst.status ≠ 4 ∧ inst.status ≠ 6 ∧ inst.status ≠ 8) ∧
    (∀ inst rest, instanceList = inst :: rest →
        (inst.status = 4 ∨ inst.status = 6 ∨ inst.status = 8) →
        (describeSqlserverInstanceById instanceList).1 = some inst ∧
        (describeSqlserverInstanceById instanceList).2.1 = false) ∧
    (∀ d, (findDbDetail dbName dbs).1 = some d →
        (findDbDetail dbName dbs).2 = true → d.status ≠ SQLSERVER_DB_DELETING) ∧
    (∀ d, (findDbDetail dbName dbs).1 = some d →
        d.status = SQLSERVER_DB_DELETING → (findDbDetail dbName dbs).2 = false) := by
  have hfind : ∀ l d, (findDbDetail dbName l).1 = some d →
      (findDbDetail dbName l).2 = (d.status != SQLSERVER_DB_DELETING) := by
    intro l
    induction l with
    | nil => intro d h; simp [findDbDetail] at h
    | cons hd tl ih =>
      intro d h
      by_cases hn : hd.name = dbName
      · simp only [findDbDetail, if_pos hn] at h ⊢
        rw [Option.some.inj h]
      · simp only [findDbDetail, if_neg hn] at h ⊢
        exact ih d h
  refine ⟨?_, ?_, ?_, ?_⟩
  · intro inst e h
    match instanceList with
    | [] => simp [describeSqlserverInstanceById] at h
    | i :: rest =>
      simp only [describeSqlserverInstanceById] at h
      have h1 : i = inst := by
        have := congrArg Prod.fst h
        simpa using this
      have h2 : (i.status != 8 && i.status != 4 && i.status != 6) = true := by
        have := congrArg (fun q => q.2.1) h
        simpa using this
      subst h1
      simp only [Bool.and_eq_true, bne_iff_ne] at h2
      exact ⟨h2.1.2, h2.2, h2.1.1⟩
  · intro inst rest hl hstat
    subst hl
    have hfalse : (inst.status != 8 && inst.status != 4 && inst.status != 6) = false := by
      rcases hstat with h | h | h <;> simp [h]
    refine ⟨rfl, ?_⟩
    simp only [describeSqlserverInstanceById]
    exact hfalse
  · intro d h1 h2
    rw [hfind dbs d h1] at h2
    exact bne_iff_ne.mp h2
  · intro d h1 h2
    rw [hfind dbs d h1, h2]
    simp

theorem existence_checks_status_filter_witness :
    (describeSqlserverInstanceById [DBInstance.mk 4]).1 = some (DBInstance.mk 4) ∧
    (describeSqlserverInstanceById [DBInstance.mk 4]).2.1 = false :=
  (existence_checks_status_filter [DBInstance.mk 4] [] []).2.1
    (DBInstance.mk 4) [] rfl (Or.inl rfl)

/-- The error shape of the SDK as the service layer inspects it: either a
TencentCloudSDKError carrying a code, or any other error. -/
inductive SdkErr where
  | sdk (code : String) (msg : String)
  | other (msg : String)
deriving DecidableEq, Repr

/-- The error test of DescribeSqlserverAccounts and DeleteSqlserverAccount:
the error is a TencentCloudSDKError whose code is
ResourceNotFound.InstanceNotFound. -/
def isInstanceNotFound : SdkErr → Bool
  | SdkErr.sdk code _ => code == "ResourceNotFound.InstanceNotFound"
  | SdkErr.other _ => false

/-- Outcome of one page call of DescribeSqlserverAccounts. -/
inductive FetchOutcome (α : Type) where
  | ok (page : List α)
  | err (e : SdkErr)
  | nilResp
deriving DecidableEq, Repr

/-- Result of the DescribeSqlserverAccounts scan. -/
inductive AccountsRes (α : Type) where
  | ok (accounts : List α)
  | fail (e : SdkErr)
  | nilRespFatal
  | fuelOut
deriving DecidableEq, Repr

/-- The offset/limit loop of DescribeSqlserverAccounts: on an error that is a
TencentCloudSDKError with code ResourceNotFound.InstanceNotFound the accounts
accumulated so far are returned with no error; any other error is
propagated; a nil response is fatal; otherwise the page is appended and the
scan continues while pages are full. -/
def describeAccountsAux {α : Type} (fetch : Nat → FetchOutcome α) (p : Nat) :
    Nat → Nat → List α → AccountsRes α
  | 0, _, _ => AccountsRes.fuelOut
  | fuel+1, offset, acc =>
    match fetch offset with
    | FetchOutcome.err e =>
      if isInstanceNotFound e then AccountsRes.ok acc else AccountsRes.fail e
    | FetchOutcome.nilResp => AccountsRes.nilRespFatal
    | FetchOutcome.ok page =>
      if page.length < p then AccountsRes.ok (acc ++ page)
      else describeAccountsAux fetch p fuel (offset + p) (acc ++ page)

/-- DeleteSqlserverAccount after the DeleteAccount call: an error with code
ResourceNotFound.InstanceNotFound is swallowed and the post-delete status
polling is skipped; any other error is propagated without polling; on a nil
error the post-delete polling runs and decides the result.  `post` embeds
the outcome of the post-delete resource.Retry loop; the boolean records
whether that polling was performed. -/
def deleteSqlserverAccount (callErr : Option SdkErr)
    (post : Except SdkErr Unit) : Except SdkErr Unit × Bool :=
  match callErr with
  | some e =>
    if isInstanceNotFound e then (Except.ok (), false) else (Except.error e, false)
  | none => (post, true)

/-- C10: an error of concrete shape TencentCloudSDKError with code
ResourceNotFound.InstanceNotFound makes DescribeSqlserverAccounts return the
accounts accumulated so far with no error, and makes DeleteSqlserverAccount
return no error without performing its post-delete polling; every other
error is propagated to the caller. -/
theorem instance_not_found_swallowed {α : Type} (fetch : Nat → FetchOutcome α)
    (p fuel offset : Nat) (acc : List α) (e : SdkErr)
    (post : Except SdkErr Unit) :
    (isInstanceNotFound e = true ↔
        ∃ m, e = SdkErr.sdk "ResourceNotFound.InstanceNotFound" m) ∧
    (fetch offset = FetchOutcome.err e → isInstanceNotFound e = true →
        describeAccountsAux fetch p (fuel + 1) offset acc = AccountsRes.ok acc) ∧
    (fetch offset = FetchOutcome.err e → isInstanceNotFound e = false →
        describeAccountsAux fetch p (fuel + 1) offset acc = AccountsRes.fail e) ∧
    (isInstanceNotFound e = true →
        deleteSqlserverAccount (some e) post = (Except.ok (), false)) ∧
    (isInstanceNotFound e = false →
        deleteSqlserverAccount (some e) post = (Except.error e, false)) := by
  refine ⟨?_, ?_, ?_, ?_, ?_⟩
  · constructor
    · intro h
      match e with
      | SdkErr.sdk code m =>
        simp only [isInstanceNotFound, beq_iff_eq] at h
        exact ⟨m, by rw [h]⟩
      | SdkErr.other m => simp [isInstanceNotFound] at h
    · rintro ⟨m, rfl⟩
      simp [isInstanceNotFound]
  · intro hf h
    simp [describeAccountsAux, hf, h]
  · intro hf h
    simp [describeAccountsAux, hf, h]
  · intro h
    simp [deleteSqlserverAccount, h]
  · intro h
    simp [deleteSqlserverAccount, h]

theorem instance_not_found_swallowed_witness :
    deleteSqlserverAccount
        (some (SdkErr.sdk "ResourceNotFound.InstanceNotFound" "gone"))
        (Except.ok ()) = (Except.ok (), false) :=
  (instance_not_found_swallowed (fun _ => FetchOutcome.ok ([] : List Nat)) 20 0 0 []
      (SdkErr.sdk "ResourceNotFound.InstanceNotFound" "gone") (Except.ok ())).2.2.2.1
    (by decide)

end TencentCloud
